import Mathlib

/-!
Shallow embedding of the storage layer of the running-rag repository
(src/storage/sqlite_store.py) together with theorems checking the
specification's claims about it.

The Python value domain relevant to the module (record field values read
from a pandas row) is modelled by an inductive type; records are
string-keyed association lists; the two SQLite tables are association
lists keyed by integer activity id; the single batch-wide transaction
opened by the with-connection block in upsert_activities is modelled by
returning the original database state whenever processing raises.
-/

namespace RunningRag

/-- Python values that can appear as a field of an activity record:
None, a string, an int, a finite float (modelled as a rational), or the
floating-point NaN sentinel. -/
inductive PyVal where
  | pnone
  | pstr (s : String)
  | pint (n : Int)
  | pfloat (q : ℚ)
  | pnan
deriving DecidableEq, Repr

/-- Exceptions the embedded code can raise: ValueError (failed numeric
coercion, int of NaN), TypeError (numeric coercion of None), and
sqlite3.OperationalError (DDL failure). -/
inductive PyErr where
  | valueError
  | typeError
  | operationalError
deriving DecidableEq, Repr

/-- Decidable equality of results, needed to evaluate concrete runs of
the embedded fallible functions. -/
instance instDecEqExcept {ε α : Type} [DecidableEq ε] [DecidableEq α] :
    DecidableEq (Except ε α)
  | .error e, .error e' =>
    if h : e = e' then .isTrue (by simp [h]) else .isFalse (by simp [h])
  | .error _, .ok _ => .isFalse (by simp)
  | .ok _, .error _ => .isFalse (by simp)
  | .ok a, .ok a' =>
    if h : a = a' then .isTrue (by simp [h]) else .isFalse (by simp [h])

/-- A record (one pandas row), modelled as a string-keyed association
list with unique keys; lookup returns the first binding, as in a dict. -/
abbrev Row := List (String × PyVal)

/-- Dictionary lookup: the value bound to a key, or none when the key is
absent. Models both the membership test and row.get. -/
def rowFind (row : Row) (k : String) : Option PyVal :=
  match row with
  | [] => none
  | (k', v) :: rest => if k = k' then some v else rowFind rest k

/-- Models row.get(k): the bound value, or None when the key is absent. -/
def pyGet (row : Row) (k : String) : PyVal :=
  (rowFind row k).getD .pnone

/-- Models row.get(k, d) with an explicit default. -/
def pyGetD (row : Row) (k : String) (d : PyVal) : PyVal :=
  (rowFind row k).getD d

/-- Python truthiness on the value domain: None, the empty string, and
numeric zero are falsy; NaN is truthy. -/
def pyTruthy : PyVal → Bool
  | .pnone => false
  | .pstr s => s ≠ ""
  | .pint n => n ≠ 0
  | .pfloat q => q ≠ 0
  | .pnan => true

/-- The Python expression a or b: a when a is truthy, else b. -/
def pyOr (a b : PyVal) : PyVal :=
  if pyTruthy a then a else b

/-- Models Python str() on the value domain. Finite floats with a
fractional part are rendered num/den; only integral floats and strings
reach str in the claims under study, where the rendering is exact. -/
def pyStr : PyVal → String
  | .pnone => "None"
  | .pstr s => s
  | .pint n => toString n
  | .pfloat q => if q.den = 1 then toString q.num ++ ".0" else toString q.num ++ "/" ++ toString q.den
  | .pnan => "nan"

/-- Whitespace for Python str.strip: space, tab, newline, carriage
return, vertical tab, form feed. -/
def isPySpace (c : Char) : Bool :=
  c = ' ' || c = '\t' || c = '\n' || c = '\r' || c = '\x0b' || c = '\x0c'

/-- Python str.strip on a character list: drop whitespace from both
ends. -/
def trimChars (cs : List Char) : List Char :=
  ((cs.dropWhile isPySpace).reverse.dropWhile isPySpace).reverse

/-- _is_missing from sqlite_store.py: None, empty-or-whitespace strings
and NaN count as missing; every other value (the pandas isna fallback
never fires on this value domain) is present. -/
def _is_missing : PyVal → Bool
  | .pnone => true
  | .pstr s => (trimChars s.data).isEmpty
  | .pint _ => false
  | .pfloat _ => false
  | .pnan => true

/-- Value of a nonempty all-digit character list, or none. -/
def parseNatDigits (cs : List Char) : Option Nat :=
  if cs ≠ [] ∧ cs.all Char.isDigit then
    some (cs.foldl (fun a c => a * 10 + (c.toNat - 48)) 0)
  else none

/-- Value of a possibly-empty all-digit character list (empty = 0);
none when a non-digit occurs. Used for the two sides of a decimal point,
either of which Python allows to be empty (but not both). -/
def parseDigitsOpt (cs : List Char) : Option Nat :=
  if cs.all Char.isDigit then
    some (cs.foldl (fun a c => a * 10 + (c.toNat - 48)) 0)
  else none

/-- Models Python float(str): surrounding whitespace, an optional sign,
then digits with at most one decimal point and at least one digit.
Simplified: exponents, inf/nan words and underscore separators are
rejected rather than parsed; no claim depends on them. -/
def parseFloat (s : String) : Option ℚ :=
  let t := trimChars s.data
  let sb : ℚ × List Char :=
    match t with
    | '-' :: rest => (-1, rest)
    | '+' :: rest => (1, rest)
    | _ => (1, t)
  let w := sb.2.takeWhile (fun c => c ≠ '.')
  match sb.2.dropWhile (fun c => c ≠ '.') with
  | [] => (parseNatDigits w).map (fun n => sb.1 * (n : ℚ))
  | _ :: f =>
    if f.contains '.' then none
    else
      match parseDigitsOpt w, parseDigitsOpt f with
      | some nw, some nf =>
        if w ≠ [] ∨ f ≠ [] then
          some (sb.1 * ((nw : ℚ) + (nf : ℚ) / (10 : ℚ) ^ f.length))
        else none
      | _, _ => none

/-- Models Python int(str): surrounding whitespace, an optional sign,
then a nonempty digit string. Underscore separators are rejected rather
than parsed; no claim depends on them. -/
def parseIntStr (s : String) : Option Int :=
  let t := trimChars s.data
  let sb : Int × List Char :=
    match t with
    | '-' :: rest => (-1, rest)
    | '+' :: rest => (1, rest)
    | _ => (1, t)
  (parseNatDigits sb.2).map (fun n => sb.1 * n)

/-- A Python float value: some q is the finite float q, none is NaN. -/
abbrev PFloat := Option ℚ

/-- Models Python float() on the value domain: ints and floats convert,
strings parse or raise ValueError, None raises TypeError, and NaN
converts to the NaN float. -/
def pythonFloat : PyVal → Except PyErr PFloat
  | .pnone => .error .typeError
  | .pstr s =>
    match parseFloat s with
    | some q => .ok (some q)
    | none => .error .valueError
  | .pint n => .ok (some (n : ℚ))
  | .pfloat q => .ok (some q)
  | .pnan => .ok none

/-- Truncation toward zero of a rational, as Python int() of a float. -/
def pyTrunc (q : ℚ) : Int :=
  q.num.tdiv (q.den : Int)

/-- Models Python int() on the value domain: ints pass through, floats
truncate toward zero, strings parse or raise ValueError, NaN raises
ValueError, None raises TypeError. -/
def pythonInt : PyVal → Except PyErr Int
  | .pnone => .error .typeError
  | .pstr s =>
    match parseIntStr s with
    | some n => .ok n
    | none => .error .valueError
  | .pint n => .ok n
  | .pfloat q => .ok (pyTrunc q)
  | .pnan => .error .valueError

/-- _first_valid from sqlite_store.py: walk the alias keys in priority
order, skip keys absent from the record and keys bound to a missing
value, and return the first remaining value; none is the absent marker
(Python None). -/
def _first_valid (row : Row) : List String → Option PyVal
  | [] => none
  | k :: ks =>
    match rowFind row k with
    | none => _first_valid row ks
    | some v => if _is_missing v then _first_valid row ks else some v

/-- Alias priority list for distance, as in upsert_activities. -/
def distance_keys : List String := ["distance", "totalDistance"]

/-- Alias priority list for duration, as in upsert_activities. -/
def duration_keys : List String := ["duration", "movingDuration", "elapsedDuration"]

/-- Alias priority list for average heart rate, as in upsert_activities. -/
def avg_hr_keys : List String := ["averageHR", "avgHR", "averageHeartRate"]

/-- Alias priority list for location, as in upsert_activities. -/
def location_keys : List String := ["locationName", "location"]

/-- An integer-keyed SQLite table with a primary-key column, modelled as
an association list with unique keys. -/
abbrev Table (α : Type) := List (Int × α)

/-- Primary-key lookup in a table. -/
def tget {α : Type} (t : Table α) (k : Int) : Option α :=
  match t with
  | [] => none
  | (k', v) :: rest => if k = k' then some v else tget rest k

/-- Insert-or-replace at a primary key: replaces the binding when the key
is present, appends it otherwise. -/
def tset {α : Type} (t : Table α) (k : Int) (v : α) : Table α :=
  match t with
  | [] => [(k, v)]
  | (k', v') :: rest => if k = k' then (k', v) :: rest else (k', v') :: tset rest k v

/-- A row of activities_raw: start_time, type_key, payload_json (the
serialized record, modelled by the record itself since the JSON encoding
is injective on this value domain), inserted_at. -/
structure RawRow where
  start_time : String
  type_key : String
  payload : Row
  inserted_at : Int
deriving DecidableEq, Repr

/-- A row of activities_flat: start_time, type_key, the four canonical
fields and inserted_at. avg_hr is nullable (none is SQL NULL). -/
structure FlatRow where
  start_time : String
  type_key : String
  distance_m : PFloat
  duration_s : PFloat
  avg_hr : Option PFloat
  location : String
  inserted_at : Int
deriving DecidableEq, Repr

/-- The contents of the two tables of the store. -/
structure DB where
  raw : Table RawRow
  flat : Table FlatRow
deriving DecidableEq, Repr

/-- The store with both tables empty. -/
def emptyDB : DB := ⟨[], []⟩

/-- The start value of upsert_activities:
str(row.get("startTimeLocal") or row.get("startTimeGMT", "") or ""). -/
def startOf (row : Row) : String :=
  pyStr (pyOr (pyGet row "startTimeLocal") (pyOr (pyGetD row "startTimeGMT" (.pstr "")) (.pstr "")))

/-- The type_key value of upsert_activities:
str(row.get("activityType.typeKey") or row.get("sportTypeId") or ""). -/
def typeKeyOf (row : Row) : String :=
  pyStr (pyOr (pyGet row "activityType.typeKey") (pyOr (pyGet row "sportTypeId") (.pstr "")))

/-- The expression float(v) if v is not None else 0.0 used for the
distance_m and duration_s bind parameters. -/
def coerceNumDefault : Option PyVal → Except PyErr PFloat
  | some v => pythonFloat v
  | none => .ok (some 0)

/-- The expression float(v) if v is not None else None used for the
avg_hr bind parameter. -/
def coerceNumOpt : Option PyVal → Except PyErr (Option PFloat)
  | some v => (pythonFloat v).map some
  | none => .ok none

/-- The expression str(v) if v is not None else "" used for the location
bind parameter. -/
def coerceStrDefault : Option PyVal → String
  | some v => pyStr v
  | none => ""

/-- The flattened row computed for one record by upsert_activities: the
four canonical fields are extracted through _first_valid with the alias
lists of the source and coerced exactly as in the bind-parameter tuple
of the activities_flat statement; inserted_at is the call timestamp. -/
def deriveFlat (now : Int) (row : Row) : Except PyErr FlatRow :=
  match coerceNumDefault (_first_valid row distance_keys) with
  | .error e => .error e
  | .ok dist =>
    match coerceNumDefault (_first_valid row duration_keys) with
    | .error e => .error e
    | .ok dur =>
      match coerceNumOpt (_first_valid row avg_hr_keys) with
      | .error e => .error e
      | .ok hr =>
        .ok ⟨startOf row, typeKeyOf row, dist, dur, hr,
             coerceStrDefault (_first_valid row location_keys), now⟩

/-- The loop state of upsert_activities: the two counters, the list of
newly inserted ids, and the (uncommitted) database contents. -/
structure UpsertAcc where
  inserted : Nat
  skipped : Nat
  new_ids : List Int
  db : DB
deriving DecidableEq, Repr

/-- One iteration of the loop of upsert_activities: skip the record when
activity_id is absent or missing; otherwise coerce the id (int may
raise), insert-or-ignore the raw row and update the counters, then
insert-or-replace the flattened row. An error aborts the batch. -/
def processRecord (now : Int) (acc : UpsertAcc) (row : Row) : Except PyErr UpsertAcc :=
  match rowFind row "activity_id" with
  | none => .ok acc
  | some v =>
    if _is_missing v then .ok acc
    else
      match pythonInt v with
      | .error e => .error e
      | .ok aid =>
        match tget acc.db.raw aid with
        | some _ =>
          match deriveFlat now row with
          | .error e => .error e
          | .ok fr =>
            .ok ⟨acc.inserted, acc.skipped + 1, acc.new_ids,
                 ⟨acc.db.raw, tset acc.db.flat aid fr⟩⟩
        | none =>
          match deriveFlat now row with
          | .error e => .error e
          | .ok fr =>
            .ok ⟨acc.inserted + 1, acc.skipped, acc.new_ids ++ [aid],
                 ⟨tset acc.db.raw aid ⟨startOf row, typeKeyOf row, row, now⟩,
                  tset acc.db.flat aid fr⟩⟩

/-- The loop of upsert_activities over the records of the batch, in
order; the first error aborts the rest. -/
def runBatch (now : Int) (acc : UpsertAcc) : List Row → Except PyErr UpsertAcc
  | [] => .ok acc
  | r :: rs =>
    match processRecord now acc r with
    | .error e => .error e
    | .ok acc' => runBatch now acc' rs

/-- upsert_activities from sqlite_store.py. The timestamp now is read
once at the start of the call (int of time.time). The whole loop runs
inside one with-connection transaction: on success the accumulated
database is committed and the counters returned; on an exception the
transaction is rolled back, so the returned database is the original
one and the error propagates. -/
def upsert_activities (now : Int) (db : DB) (rows : List Row) :
    Except PyErr (Nat × Nat × List Int) × DB :=
  match runBatch now ⟨0, 0, [], db⟩ rows with
  | .ok acc => (.ok (acc.inserted, acc.skipped, acc.new_ids), acc.db)
  | .error e => (.error e, db)

/-- The schema-level state of the store file: whether write-ahead
journaling has been selected and whether each of the two tables exists
(some holds its contents when it does). -/
structure Store where
  journal_wal : Bool
  raw_tab : Option (Table RawRow)
  flat_tab : Option (Table FlatRow)
deriving DecidableEq, Repr

/-- The statements of the DDL script of sqlite_store.py, in script
order; each create-table carries its if-not-exists flag. -/
inductive Stmt where
  | pragmaWal
  | createRaw (ifNotExists : Bool)
  | createFlat (ifNotExists : Bool)
deriving DecidableEq, Repr

/-- The DDL script: PRAGMA journal_mode=WAL, then the two create table
if not exists statements. -/
def DDL : List Stmt := [.pragmaWal, .createRaw true, .createFlat true]

/-- Effect of one DDL statement on the store: the pragma selects WAL; a
create-table creates an empty table when absent, and when the table
already exists it is a no-op under if-not-exists but raises
OperationalError without it. -/
def execStmt (s : Store) : Stmt → Except PyErr Store
  | .pragmaWal => .ok { s with journal_wal := true }
  | .createRaw ine =>
    match s.raw_tab with
    | some _ => if ine then .ok s else .error .operationalError
    | none => .ok { s with raw_tab := some [] }
  | .createFlat ine =>
    match s.flat_tab with
    | some _ => if ine then .ok s else .error .operationalError
    | none => .ok { s with flat_tab := some [] }

/-- Folding the effects of a statement list over the store. -/
def execStmts (s : Store) : List Stmt → Except PyErr Store
  | [] => .ok s
  | st :: sts =>
    match execStmt s st with
    | .error e => .error e
    | .ok s' => execStmts s' sts

/-- init_db from sqlite_store.py: execute every nonempty statement of
the DDL script in order. -/
def init_db (s : Store) : Except PyErr Store :=
  execStmts s DDL

/-- n successive calls of init_db, each starting from the previous
call's resulting store; an error aborts the sequence. -/
def initIter : Nat → Store → Except PyErr Store
  | 0, s => .ok s
  | n + 1, s =>
    match init_db s with
    | .error e => .error e
    | .ok s' => initIter n s'

/-- The store state produced by one init_db call: WAL selected and each
table created empty when absent, kept untouched when present. -/
def schemaOf (s : Store) : Store :=
  ⟨true, some (s.raw_tab.getD []), some (s.flat_tab.getD [])⟩

/-- Specification-side restatement of _first_valid, written from the
spec's words: the value of the first alias key present in the record
whose value is not missing, or the absent marker when no alias has a
usable value. -/
def specFirstValid (row : Row) (keys : List String) : Option PyVal :=
  (keys.filterMap (fun k =>
    match rowFind row k with
    | none => none
    | some v => if _is_missing v then none else some v)).head?

/-- The activity id the loop would use for a record: some aid when the
key is present, its value is not missing, and the int coercion succeeds;
none otherwise. -/
def rowAid (row : Row) : Option Int :=
  match rowFind row "activity_id" with
  | none => none
  | some v => if _is_missing v then none else (pythonInt v).toOption

/-- Whether the loop's data-quality filter drops the record: the
activity_id key is absent or its value is missing. -/
def missingId (row : Row) : Bool :=
  match rowFind row "activity_id" with
  | none => true
  | some v => _is_missing v

/-- The last record of the list whose usable activity id is aid. -/
def lastWith (aid : Int) : List Row → Option Row
  | [] => none
  | r :: rs =>
    match lastWith aid rs with
    | some x => some x
    | none => if rowAid r = some aid then some r else none

/-- The ids of a list not yet present (per the given presence predicate),
keeping the first occurrence of each and the encounter order. -/
def firstNew (present : Int → Bool) : List Int → List Int
  | [] => []
  | a :: as =>
    if present a then firstNew present as
    else a :: firstNew (fun j => if j = a then true else present j) as

/-- A well-formed activity record with id 101. -/
def recA : Row :=
  [("activity_id", .pint 101), ("startTimeLocal", .pstr "2024-01-01T07:00:00"),
   ("activityType.typeKey", .pstr "running"), ("distance", .pint 1000),
   ("duration", .pint 300), ("averageHR", .pint 150), ("locationName", .pstr "London")]

/-- A resubmission of activity 101 with corrected values under partly
different alias keys. -/
def recA2 : Row :=
  [("activity_id", .pint 101), ("startTimeLocal", .pstr "2024-01-01T07:30:00"),
   ("activityType.typeKey", .pstr "running"), ("distance", .pint 1250),
   ("duration", .pint 320), ("avgHR", .pint 151), ("location", .pstr "Berlin")]

/-- A well-formed activity record with id 202. -/
def recB : Row :=
  [("activity_id", .pint 202), ("distance", .pint 2000),
   ("movingDuration", .pint 600), ("avgHR", .pint 135), ("locationName", .pstr "Paris")]

/-- A record without an activity_id key. -/
def rNoId : Row := [("startTimeLocal", .pstr "2024-01-03T09:00:00"), ("distance", .pint 5)]

/-- A record whose activity_id is the NaN sentinel. -/
def rNanId : Row := [("activity_id", .pnan), ("distance", .pint 7)]

/-- A record whose activity_id is a string that int() cannot coerce. -/
def rBadId : Row := [("activity_id", .pstr "abc")]

/-- A record with a valid id whose distance value float() cannot
coerce. -/
def rBadDist : Row := [("activity_id", .pint 2), ("distance", .pstr "abc"), ("duration", .pint 300)]

/-- A record with a valid id, before the failing record in the C1
scenario. -/
def rGood : Row := [("activity_id", .pint 1), ("distance", .pint 1000)]

/-- A record with a valid id and none of the canonical alias keys. -/
def row7 : Row := [("activity_id", .pint 7)]

/-- The raw row written for recA at timestamp 111. -/
def rrA : RawRow := ⟨"2024-01-01T07:00:00", "running", recA, 111⟩

/-- The flattened row derived from recA at timestamp 111. -/
def frA : FlatRow :=
  ⟨"2024-01-01T07:00:00", "running", some 1000, some 300, some (some 150), "London", 111⟩

/-- The flattened row derived from recA2 at timestamp 222. -/
def frA2 : FlatRow :=
  ⟨"2024-01-01T07:30:00", "running", some 1250, some 320, some (some 151), "Berlin", 222⟩

/-- The store contents after upserting recA alone at timestamp 111. -/
def dbA : DB := ⟨[(101, rrA)], [(101, frA)]⟩

/-- The store contents after then upserting recA2 at timestamp 222. -/
def dbA2 : DB := ⟨[(101, rrA)], [(101, frA2)]⟩

/-- The fresh loop state of a second call running over the store
written by the first call. -/
def accPre : UpsertAcc := ⟨0, 0, [], dbA⟩

/-- The loop state after the second call processes recA2. -/
def acc5' : UpsertAcc := ⟨0, 1, [], dbA2⟩

/-- A batch mixing valid records, a record without an id, a record with
a NaN id, and a duplicate id. -/
def rowsC6 : List Row := [recA, rNoId, recB, rNanId, recA2]

/-- The raw row written for row7 at timestamp 100. -/
def rr7 : RawRow := ⟨"", "", row7, 100⟩

/-- The flattened row derived from row7 at timestamp 100: every
canonical field takes its absent default. -/
def fr7 : FlatRow := ⟨"", "", some 0, some 0, none, "", 100⟩

/-- The loop state after processing row7 from the empty store. -/
def acc7 : UpsertAcc := ⟨1, 0, [7], ⟨[(7, rr7)], [(7, fr7)]⟩⟩

/-- The raw row written for recA at timestamp 100. -/
def rrA100 : RawRow := ⟨"2024-01-01T07:00:00", "running", recA, 100⟩

/-- The flattened row derived from recA at timestamp 100. -/
def frA100 : FlatRow :=
  ⟨"2024-01-01T07:00:00", "running", some 1000, some 300, some (some 150), "London", 100⟩

/-- The store contents after upserting recA alone at timestamp 100. -/
def dbA100 : DB := ⟨[(101, rrA100)], [(101, frA100)]⟩

/-- A record with a valid id, present distance and duration, and no
usable avg-heart-rate or location alias: a mixed-presence write. -/
def rMixed : Row := [("activity_id", .pint 9), ("distance", .pint 500), ("duration", .pint 60)]

/-- The raw row written for rMixed at timestamp 100. -/
def rr9 : RawRow := ⟨"", "", rMixed, 100⟩

/-- The flattened row derived from rMixed at timestamp 100: present
fields keep their values, the absent ones take their defaults. -/
def fr9 : FlatRow := ⟨"", "", some 500, some 60, none, "", 100⟩

/-- The loop state after processing rMixed from the empty store. -/
def acc9 : UpsertAcc := ⟨1, 0, [9], ⟨[(9, rr9)], [(9, fr9)]⟩⟩

theorem tget_tset_self {α : Type} (t : Table α) (k : Int) (v : α) :
    tget (tset t k v) k = some v := by
  induction t with
  | nil => simp [tget, tset]
  | cons p rest ih =>
    obtain ⟨k', v'⟩ := p
    by_cases h : k = k'
    · simp [tset, tget, h]
    · simp [tset, tget, h, ih]

theorem tget_tset_ne {α : Type} (t : Table α) (k j : Int) (v : α) (h : j ≠ k) :
    tget (tset t k v) j = tget t j := by
  induction t with
  | nil => simp [tget, tset, h]
  | cons p rest ih =>
    obtain ⟨k', v'⟩ := p
    by_cases hk : k = k'
    · subst hk
      simp [tset, tget, h]
    · by_cases hj : j = k'
      · simp [tset, tget, hk, hj]
      · simp [tset, tget, hk, hj, ih]

theorem firstNew_congr : ∀ (as : List Int) (p q : Int → Bool), (∀ a, p a = q a) →
    firstNew p as = firstNew q as := by
  intro as
  induction as with
  | nil => intro p q _; rfl
  | cons a as ih =>
    intro p q h
    simp only [firstNew, h a]
    by_cases hq : q a = true
    · simp only [hq, if_true]
      exact ih p q h
    · simp only [hq, if_false, Bool.false_eq_true]
      refine congrArg (a :: ·) (ih _ _ ?_)
      intro j
      by_cases hj : j = a <;> simp [hj, h j]

theorem deriveFlat_inserted_at (now : Int) (row : Row) (fr : FlatRow)
    (h : deriveFlat now row = .ok fr) : fr.inserted_at = now := by
  unfold deriveFlat at h
  split at h
  · cases h
  · split at h
    · cases h
    · split at h
      · cases h
      · cases h
        rfl

/-- Exhaustive description of a successful loop iteration: either the
record was dropped by the data-quality filter and nothing changed, or it
carries a usable id and the flattened row was replaced, with the raw row
either left alone (counted skipped) or newly created (counted inserted,
id appended). -/
theorem processRecord_ok_spec (now : Int) (acc acc' : UpsertAcc) (row : Row)
    (h : processRecord now acc row = .ok acc') :
    (rowAid row = none ∧ acc' = acc) ∨
    (∃ aid fr, rowAid row = some aid ∧ deriveFlat now row = .ok fr ∧
      acc'.db.flat = tset acc.db.flat aid fr ∧
      (((tget acc.db.raw aid).isSome = true ∧ acc'.db.raw = acc.db.raw ∧
          acc'.inserted = acc.inserted ∧ acc'.skipped = acc.skipped + 1 ∧
          acc'.new_ids = acc.new_ids) ∨
        (tget acc.db.raw aid = none ∧
          acc'.db.raw = tset acc.db.raw aid ⟨startOf row, typeKeyOf row, row, now⟩ ∧
          acc'.inserted = acc.inserted + 1 ∧ acc'.skipped = acc.skipped ∧
          acc'.new_ids = acc.new_ids ++ [aid]))) := by
  unfold processRecord at h
  split at h
  next hf =>
    cases h
    exact Or.inl ⟨by simp [rowAid, hf], rfl⟩
  next v hf =>
    split at h
    next hm =>
      cases h
      exact Or.inl ⟨by simp [rowAid, hf, hm], rfl⟩
    next hm =>
      split at h
      next e he => cases h
      next aid he =>
        split at h
        next rr hraw =>
          split at h
          next e hd => cases h
          next fr hd =>
            cases h
            refine Or.inr ⟨aid, fr, ?_, hd, rfl, Or.inl ⟨?_, rfl, rfl, rfl, rfl⟩⟩
            · simp [rowAid, hf, hm, he, Except.toOption]
            · simp [hraw]
        next hraw =>
          split at h
          next e hd => cases h
          next fr hd =>
            cases h
            refine Or.inr ⟨aid, fr, ?_, hd, rfl, Or.inr ⟨hraw, rfl, rfl, rfl, rfl⟩⟩
            simp [rowAid, hf, hm, he, Except.toOption]

/-- Count and id-list invariant of the loop: a successful run adds one
to inserted plus skipped for every record with a usable id, and appends
to new_ids exactly the not-yet-present ids, first occurrences in
encounter order. -/
theorem runBatch_counts (now : Int) : ∀ (rows : List Row) (acc acc' : UpsertAcc),
    runBatch now acc rows = .ok acc' →
    acc'.inserted + acc'.skipped =
      acc.inserted + acc.skipped + rows.countP (fun r => (rowAid r).isSome) ∧
    acc'.new_ids =
      acc.new_ids ++ firstNew (fun a => (tget acc.db.raw a).isSome) (rows.filterMap rowAid) := by
  intro rows
  induction rows with
  | nil =>
    intro acc acc' h
    cases h
    simp [firstNew]
  | cons r rs ih =>
    intro acc acc' h
    unfold runBatch at h
    split at h
    next e he => cases h
    next acc1 h1 =>
      have hrec := ih acc1 acc' h
      rcases processRecord_ok_spec now acc acc1 r h1 with
        ⟨hnone, rfl⟩ | ⟨aid, fr, hsome, _, _, hbr⟩
      · simpa [List.countP_cons, List.filterMap_cons, hnone] using hrec
      · rcases hbr with ⟨hpres, hraw, hins, hskp, hids⟩ | ⟨habs, hraw, hins, hskp, hids⟩
        · constructor
          · rw [hrec.1, hins, hskp]
            simp [List.countP_cons, hsome]
            omega
          · rw [hrec.2, hids, hraw]
            simp only [List.filterMap_cons, hsome]
            rw [firstNew]
            simp [hpres]
        · constructor
          · rw [hrec.1, hins, hskp]
            simp [List.countP_cons, hsome]
            omega
          · rw [hrec.2, hids, hraw]
            simp only [List.filterMap_cons, hsome]
            rw [firstNew]
            simp only [habs, Option.isSome_none, Bool.false_eq_true, if_false,
              List.append_assoc, List.cons_append, List.nil_append]
            refine congrArg (fun l => acc.new_ids ++ aid :: l) ?_
            refine firstNew_congr _ _ _ ?_
            intro j
            by_cases hj : j = aid
            · simp [hj, tget_tset_self]
            · simp [hj, tget_tset_ne _ _ _ _ hj]

/-- Flat-projection invariant of the loop: a successful run leaves the
flattened row of an id untouched when no record of the batch carries the
id, and otherwise sets it to the derivation of the last record that
does. -/
theorem runBatch_flat_latest (now : Int) :
    ∀ (rows : List Row) (acc acc' : UpsertAcc) (aid : Int),
    runBatch now acc rows = .ok acc' →
    (lastWith aid rows = none → tget acc'.db.flat aid = tget acc.db.flat aid) ∧
    (∀ r, lastWith aid rows = some r →
      ∃ fr, deriveFlat now r = .ok fr ∧ tget acc'.db.flat aid = some fr) := by
  intro rows
  induction rows with
  | nil =>
    intro acc acc' aid h
    cases h
    exact ⟨fun _ => rfl, fun r hr => by cases hr⟩
  | cons r rs ih =>
    intro acc acc' aid h
    unfold runBatch at h
    split at h
    next e he => cases h
    next acc1 h1 =>
      obtain ⟨ihn, ihs⟩ := ih acc1 acc' aid h
      have hspec := processRecord_ok_spec now acc acc1 r h1
      constructor
      · intro hl
        unfold lastWith at hl
        cases hls : lastWith aid rs with
        | some x => rw [hls] at hl; cases hl
        | none =>
          rw [hls] at hl
          have hne : rowAid r ≠ some aid := by
            intro hh
            rw [if_pos hh] at hl
            cases hl
          rw [ihn hls]
          rcases hspec with ⟨_, rfl⟩ | ⟨aid', fr, hsome, _, hflat, _⟩
          · rfl
          · have haa : aid ≠ aid' := fun hh => hne (hh ▸ hsome)
            rw [hflat, tget_tset_ne _ _ _ _ haa]
      · intro r0 hl
        unfold lastWith at hl
        cases hls : lastWith aid rs with
        | some x =>
          rw [hls] at hl
          cases hl
          exact ihs r0 hls
        | none =>
          rw [hls] at hl
          by_cases hr0 : rowAid r = some aid
          · rw [if_pos hr0] at hl
            cases hl
            rcases hspec with ⟨hnone, _⟩ | ⟨aid', fr, hsome, hdf, hflat, _⟩
            · rw [hnone] at hr0; cases hr0
            · rw [hsome] at hr0
              injection hr0 with hr0
              subst hr0
              exact ⟨fr, hdf, by rw [ihn hls, hflat, tget_tset_self]⟩
          · rw [if_neg hr0] at hl
            cases hl

/-- Timestamp invariant of the loop: every raw row and every flattened
row that a successful run writes carries inserted_at equal to the single
timestamp of the call; all other rows are left as they were. -/
theorem runBatch_inserted_at (now : Int) : ∀ (rows : List Row) (acc acc' : UpsertAcc),
    runBatch now acc rows = .ok acc' →
    (∀ aid rr, tget acc'.db.raw aid = some rr →
      tget acc.db.raw aid = some rr ∨ rr.inserted_at = now) ∧
    (∀ aid fr, tget acc'.db.flat aid = some fr →
      tget acc.db.flat aid = some fr ∨ fr.inserted_at = now) := by
  intro rows
  induction rows with
  | nil =>
    intro acc acc' h
    cases h
    exact ⟨fun _ _ hr => Or.inl hr, fun _ _ hf => Or.inl hf⟩
  | cons r rs ih =>
    intro acc acc' h
    unfold runBatch at h
    split at h
    next e he => cases h
    next acc1 h1 =>
      obtain ⟨ihr, ihf⟩ := ih acc1 acc' h
      rcases processRecord_ok_spec now acc acc1 r h1 with
        ⟨_, rfl⟩ | ⟨aid', fr', hsome, hdf, hflat, hbr⟩
      · exact ⟨ihr, ihf⟩
      · constructor
        · intro aid rr hr
          rcases ihr aid rr hr with h2 | h2
          · rcases hbr with ⟨_, hraw, _⟩ | ⟨_, hraw, _⟩
            · rw [hraw] at h2
              exact Or.inl h2
            · rw [hraw] at h2
              by_cases hj : aid = aid'
              · subst hj
                rw [tget_tset_self] at h2
                injection h2 with h2
                right
                rw [show rr.inserted_at = (⟨startOf r, typeKeyOf r, r, now⟩ : RawRow).inserted_at from by rw [h2]]
              · rw [tget_tset_ne _ _ _ _ hj] at h2
                exact Or.inl h2
          · exact Or.inr h2
        · intro aid fr hf
          rcases ihf aid fr hf with h2 | h2
          · rw [hflat] at h2
            by_cases hj : aid = aid'
            · subst hj
              rw [tget_tset_self] at h2
              injection h2 with h2
              right
              rw [show fr.inserted_at = fr'.inserted_at from by rw [h2]]
              exact deriveFlat_inserted_at now r fr' hdf
            · rw [tget_tset_ne _ _ _ _ hj] at h2
              exact Or.inl h2
          · exact Or.inr h2

example : upsert_activities 111 emptyDB [recA] = (.ok (1, 0, [101]), dbA) := by decide
example : upsert_activities 222 dbA [recA2] = (.ok (0, 1, []), dbA2) := by decide
example : processRecord 222 accPre recA2 = .ok acc5' := by decide
example : upsert_activities 100 emptyDB [rBadDist] = (.error .valueError, emptyDB) := by decide
example : upsert_activities 100 emptyDB [rBadId] = (.error .valueError, emptyDB) := by decide
example : upsert_activities 100 emptyDB [rNoId, rNanId] = (.ok (0, 0, []), emptyDB) := by decide
theorem init_db_eq (s : Store) : init_db s = .ok (schemaOf s) := by
  obtain ⟨j, rt, ft⟩ := s
  cases rt <;> cases ft <;> rfl

theorem schemaOf_idem (s : Store) : schemaOf (schemaOf s) = schemaOf s := rfl

theorem initIter_fixed (t : Store) (ht : schemaOf t = t) : ∀ m, initIter m t = .ok t := by
  intro m
  induction m with
  | zero => rfl
  | succ m ih =>
    unfold initIter
    rw [init_db_eq, ht]
    exact ih

theorem deriveFlat_ok_fields (now : Int) (row : Row) (fr : FlatRow)
    (h : deriveFlat now row = .ok fr) :
    coerceNumDefault (_first_valid row distance_keys) = .ok fr.distance_m ∧
    coerceNumDefault (_first_valid row duration_keys) = .ok fr.duration_s ∧
    coerceNumOpt (_first_valid row avg_hr_keys) = .ok fr.avg_hr ∧
    fr.location = coerceStrDefault (_first_valid row location_keys) := by
  unfold deriveFlat at h
  split at h
  · cases h
  next dist hdist =>
    split at h
    · cases h
    next dur hdur =>
      split at h
      · cases h
      next hr hhr =>
        cases h
        exact ⟨hdist, hdur, hhr, rfl⟩

example : processRecord 100 ⟨0, 0, [], emptyDB⟩ rMixed = .ok acc9 := by decide
example : rowAid recA = some 101 := by decide
example : _first_valid recA2 avg_hr_keys = some (.pint 151) := by decide
example :
    _first_valid [("averageHR", PyVal.pnan), ("avgHR", PyVal.pint 140)] avg_hr_keys
      = some (.pint 140) := by decide

/-- C1 (counterexample): the first record of the batch is processed to
completion on its own, yet when the second record fails, the call
returns with the original store — the first record's raw row is gone,
so records are not committed in per-record units of work and a mid-batch
failure does roll back the whole batch. -/
theorem per_record_atomicity_cex :
    (processRecord 100 ⟨0, 0, [], emptyDB⟩ rGood).toOption.isSome = true ∧
    (upsert_activities 100 emptyDB [rGood, rBadDist]).1.toOption.isSome = false ∧
    tget (upsert_activities 100 emptyDB [rGood, rBadDist]).2.raw 1 = none := by
  refine ⟨?_, ?_, ?_⟩ <;> decide

/-- C1 (amended): records are processed in order inside one atomic unit
of work spanning the whole batch: when any record fails, the entire
batch is rolled back, so no record is left with its raw and flattened
projections in disagreement, and no record of the batch, earlier ones
included, remains committed. -/
theorem upsert_whole_batch_rollback (now : Int) (db : DB) (rows : List Row) (e : PyErr)
    (h : (upsert_activities now db rows).1 = .error e) :
    (upsert_activities now db rows).2 = db := by
  unfold upsert_activities at h ⊢
  cases hrun : runBatch now ⟨0, 0, [], db⟩ rows with
  | ok acc =>
    rw [hrun] at h
    simp at h
  | error e' =>
    rfl

/-- C1 (witness): after the failing two-record batch the store equals
the original store. -/
theorem upsert_whole_batch_rollback_witness :
    (upsert_activities 100 emptyDB [rGood, rBadDist]).2 = emptyDB :=
  upsert_whole_batch_rollback 100 emptyDB [rGood, rBadDist] .valueError (by decide)

/-- C3 (counterexample): a record whose activity_id is present but
cannot be coerced to an integer is not silently excluded — the call
raises ValueError. -/
theorem invalid_id_cex :
    (upsert_activities 100 emptyDB [rBadId]).1 = .error .valueError := by
  decide

/-- C3 (amended): a record whose activity_id is absent or null/NaN-like
is silently excluded, contributing to no count, no id list and no store
change; but a record whose activity_id is present and non-missing yet
not coercible to an integer raises and aborts the batch. -/
theorem id_filter_behaviour (now : Int) (acc : UpsertAcc) (row : Row) (v : PyVal) (e : PyErr) :
    (missingId row = true → processRecord now acc row = .ok acc) ∧
    (rowFind row "activity_id" = some v → _is_missing v = false → pythonInt v = .error e →
      processRecord now acc row = .error e) := by
  constructor
  · intro hm
    unfold missingId at hm
    unfold processRecord
    cases hf : rowFind row "activity_id" with
    | none => rfl
    | some v0 =>
      simp only [hf] at hm
      simp [hf, hm]
  · intro hf hm hi
    unfold processRecord
    simp [hf, hm, hi]

/-- C3 (witness): a record without the id key leaves the loop state
untouched, and a record with the non-coercible id string raises. -/
theorem id_filter_behaviour_witness :
    processRecord 100 ⟨0, 0, [], emptyDB⟩ rNoId = .ok ⟨0, 0, [], emptyDB⟩ ∧
    processRecord 100 ⟨0, 0, [], emptyDB⟩ rBadId = .error .valueError :=
  ⟨(id_filter_behaviour 100 ⟨0, 0, [], emptyDB⟩ rNoId PyVal.pnone PyErr.valueError).1 (by decide),
   (id_filter_behaviour 100 ⟨0, 0, [], emptyDB⟩ rBadId (.pstr "abc") .valueError).2
     (by decide) (by decide) (by decide)⟩

/-- C4: on a successful call the flattened row of an id is
unconditionally overwritten with the values derived from the latest
record of the batch carrying that id, stamped with the call's
timestamp, whether or not the raw insert was skipped. -/
theorem flat_row_latest_submission (now : Int) (db : DB) (rows : List Row)
    (res : Nat × Nat × List Int) (db' : DB) (aid : Int) (r : Row) (fr : FlatRow)
    (h : upsert_activities now db rows = (.ok res, db'))
    (hl : lastWith aid rows = some r)
    (hd : deriveFlat now r = .ok fr) :
    tget db'.flat aid = some fr ∧ fr.inserted_at = now := by
  unfold upsert_activities at h
  split at h
  next acc hrun =>
    injection h with h1 h2
    subst h2
    obtain ⟨fr', hd', hres⟩ := (runBatch_flat_latest now rows ⟨0, 0, [], db⟩ acc aid hrun).2 r hl
    rw [hd] at hd'
    injection hd' with hd'
    subst hd'
    exact ⟨hres, deriveFlat_inserted_at now r fr hd⟩
  next e hrun =>
    injection h with h1 h2
    cases h1

/-- C4 (witness): resubmitting activity 101 with corrected values at
time 222 over the store written at time 111 leaves the flattened row
equal to the new derivation with the new timestamp, although the raw
insert was skipped. -/
theorem flat_row_latest_submission_witness :
    tget dbA2.flat 101 = some frA2 ∧ frA2.inserted_at = 222 :=
  flat_row_latest_submission 222 dbA [recA2] (0, 1, []) dbA2 101 recA2 frA2
    (by decide) (by decide) (by decide)

/-- C5: when the id of a record already has a raw row, the raw insert is
a no-op, not an error: the raw row is unchanged in every column, the
record is counted as skipped, and neither inserted nor new_ids grows. -/
theorem raw_insert_noop_on_existing (now : Int) (acc acc' : UpsertAcc) (row : Row)
    (aid : Int) (rr : RawRow)
    (hid : rowAid row = some aid)
    (hex : tget acc.db.raw aid = some rr)
    (hok : processRecord now acc row = .ok acc') :
    tget acc'.db.raw aid = some rr ∧ acc'.skipped = acc.skipped + 1 ∧
    acc'.inserted = acc.inserted ∧ acc'.new_ids = acc.new_ids := by
  rcases processRecord_ok_spec now acc acc' row hok with
    ⟨hnone, _⟩ | ⟨aid', fr, hsome, _, _, hbr⟩
  · rw [hnone] at hid
    cases hid
  · rw [hsome] at hid
    injection hid with hid
    subst hid
    rcases hbr with ⟨_, hraw, hins, hskp, hids⟩ | ⟨habs, _⟩
    · rw [hraw]
      exact ⟨hex, hskp, hins, hids⟩
    · rw [habs] at hex
      cases hex

/-- C5 (witness): processing recA2 at time 222 against the store that
already holds activity 101 from time 111 leaves the raw row of 111
untouched and counts the record as skipped. -/
theorem raw_insert_noop_on_existing_witness :
    tget acc5'.db.raw 101 = some rrA ∧ acc5'.skipped = accPre.skipped + 1 ∧
    acc5'.inserted = accPre.inserted ∧ acc5'.new_ids = accPre.new_ids :=
  raw_insert_noop_on_existing 222 accPre acc5' recA2 101 rrA
    (by decide) (by decide) (by decide)

/-- C6: a successful call returns inserted plus skipped equal to the
number of records with a present and usable activity_id, and new_ids is
exactly the ids not previously present, first occurrences in encounter
order. -/
theorem upsert_return_counts (now : Int) (db : DB) (rows : List Row)
    (ins skp : Nat) (ids : List Int) (db' : DB)
    (h : upsert_activities now db rows = (.ok (ins, skp, ids), db')) :
    ins + skp = rows.countP (fun r => (rowAid r).isSome) ∧
    ids = firstNew (fun a => (tget db.raw a).isSome) (rows.filterMap rowAid) := by
  unfold upsert_activities at h
  split at h
  next acc hrun =>
    injection h with h1 h2
    injection h1 with h1
    injection h1 with ha hb
    injection hb with hb hc
    obtain ⟨hcount, hids⟩ := runBatch_counts now rows ⟨0, 0, [], db⟩ acc hrun
    subst ha
    subst hb
    subst hc
    refine ⟨?_, ?_⟩
    · simpa using hcount
    · simpa using hids
  next e hrun =>
    injection h with h1 h2
    cases h1

/-- C6 (witness): a batch with two fresh ids, one duplicate and two
id-less records yields inserted 2, skipped 1 and new_ids in encounter
order. -/
theorem upsert_return_counts_witness :
    2 + 1 = rowsC6.countP (fun r => (rowAid r).isSome) ∧
    [101, 202] = firstNew (fun a => (tget emptyDB.raw a).isSome) (rowsC6.filterMap rowAid) :=
  upsert_return_counts 100 emptyDB rowsC6 2 1 [101, 202]
    (upsert_activities 100 emptyDB rowsC6).2 (by decide)

/-- C7: extraction walks each alias list in priority order, skipping
keys that are absent and keys whose value is missing (null, empty or
whitespace-only string, NaN), returning the first usable value and an
explicit absent marker otherwise; the alias lists are exactly those of
the claim. -/
theorem first_valid_alias_order :
    distance_keys = ["distance", "totalDistance"] ∧
    duration_keys = ["duration", "movingDuration", "elapsedDuration"] ∧
    avg_hr_keys = ["averageHR", "avgHR", "averageHeartRate"] ∧
    location_keys = ["locationName", "location"] ∧
    ∀ (row : Row) (keys : List String), _first_valid row keys = specFirstValid row keys := by
  refine ⟨rfl, rfl, rfl, rfl, ?_⟩
  intro row keys
  induction keys with
  | nil => rfl
  | cons k ks ih =>
    simp only [_first_valid, specFirstValid, List.filterMap_cons]
    cases hf : rowFind row k with
    | none => simpa [specFirstValid] using ih
    | some v =>
      by_cases hm : _is_missing v = true
      · simp only [hm, if_true]
        simpa [specFirstValid] using ih
      · simp [hm]

/-- C8: on every flattened write each canonical field takes its absent
default independently of the presence of the others: an absent distance
or duration is stored as the numeric default 0.0, an absent average
heart rate as SQL NULL (neither 0.0 nor a NaN sentinel), and an absent
location as the empty string. -/
theorem absent_field_defaults (now : Int) (acc acc' : UpsertAcc) (row : Row) (aid : Int)
    (hid : rowAid row = some aid)
    (hok : processRecord now acc row = .ok acc') :
    (_first_valid row distance_keys = none →
      (tget acc'.db.flat aid).map FlatRow.distance_m = some (some 0)) ∧
    (_first_valid row duration_keys = none →
      (tget acc'.db.flat aid).map FlatRow.duration_s = some (some 0)) ∧
    (_first_valid row avg_hr_keys = none →
      (tget acc'.db.flat aid).map FlatRow.avg_hr = some none) ∧
    (_first_valid row location_keys = none →
      (tget acc'.db.flat aid).map FlatRow.location = some "") := by
  rcases processRecord_ok_spec now acc acc' row hok with
    ⟨hnone, _⟩ | ⟨aid', fr, hsome, hdf, hflat, _⟩
  · rw [hnone] at hid
    cases hid
  · rw [hsome] at hid
    injection hid with hid
    subst hid
    obtain ⟨hdist, hdur, hhr, hloc⟩ := deriveFlat_ok_fields now row fr hdf
    rw [hflat, tget_tset_self]
    refine ⟨?_, ?_, ?_, ?_⟩
    · intro hx
      rw [hx] at hdist
      simp only [coerceNumDefault] at hdist
      injection hdist with hdist
      simp [← hdist]
    · intro hx
      rw [hx] at hdur
      simp only [coerceNumDefault] at hdur
      injection hdur with hdur
      simp [← hdur]
    · intro hx
      rw [hx] at hhr
      simp only [coerceNumOpt] at hhr
      injection hhr with hhr
      simp [← hhr]
    · intro hx
      rw [hx] at hloc
      simp only [coerceStrDefault] at hloc
      simp [hloc]

/-- C8 (witness): in the all-absent write of row7 distance and duration
take the 0.0 default, and in the mixed-presence write of rMixed, whose
distance and duration are present, avg_hr is stored as NULL and
location as the empty string. -/
theorem absent_field_defaults_witness :
    (tget acc7.db.flat 7).map FlatRow.distance_m = some (some 0) ∧
    (tget acc7.db.flat 7).map FlatRow.duration_s = some (some 0) ∧
    (tget acc9.db.flat 9).map FlatRow.avg_hr = some none ∧
    (tget acc9.db.flat 9).map FlatRow.location = some "" :=
  ⟨(absent_field_defaults 100 ⟨0, 0, [], emptyDB⟩ acc7 row7 7
      (by decide) (by decide)).1 (by decide),
   (absent_field_defaults 100 ⟨0, 0, [], emptyDB⟩ acc7 row7 7
      (by decide) (by decide)).2.1 (by decide),
   (absent_field_defaults 100 ⟨0, 0, [], emptyDB⟩ acc9 rMixed 9
      (by decide) (by decide)).2.2.1 (by decide),
   (absent_field_defaults 100 ⟨0, 0, [], emptyDB⟩ acc9 rMixed 9
      (by decide) (by decide)).2.2.2 (by decide)⟩

/-- C9: init_db always succeeds, creating write-ahead journaling and the
two tables when absent and leaving an existing schema untouched, and any
positive number of successive calls yields the same result as one. -/
theorem init_db_idempotent (s : Store) (n : Nat) (h : 1 ≤ n) :
    init_db s = .ok (schemaOf s) ∧ initIter n s = init_db s := by
  refine ⟨init_db_eq s, ?_⟩
  obtain ⟨m, rfl⟩ : ∃ m, n = m + 1 := ⟨n - 1, by omega⟩
  show initIter (m + 1) s = init_db s
  unfold initIter
  rw [init_db_eq]
  exact initIter_fixed (schemaOf s) (schemaOf_idem s) m

/-- C9 (witness): three calls on a fresh store equal one call, and the
single call succeeds with the created schema. -/
theorem init_db_idempotent_witness :
    init_db ⟨false, none, none⟩ = .ok (schemaOf ⟨false, none, none⟩) ∧
    initIter 3 ⟨false, none, none⟩ = init_db ⟨false, none, none⟩ :=
  init_db_idempotent ⟨false, none, none⟩ 3 (by decide)

/-- C10: the timestamp is fixed once per call, so every raw row and
every flattened row written by a successful call (any row of the final
store that differs from the original store) carries inserted_at equal to
that one timestamp, however many records the batch holds. -/
theorem single_timestamp_per_call (now : Int) (db : DB) (rows : List Row)
    (res : Nat × Nat × List Int) (db' : DB) (aid : Int) (rr : RawRow) (fr : FlatRow)
    (h : upsert_activities now db rows = (.ok res, db'))
    (hr : tget db'.raw aid = some rr)
    (hf : tget db'.flat aid = some fr) :
    (tget db.raw aid = some rr ∨ rr.inserted_at = now) ∧
    (tget db.flat aid = some fr ∨ fr.inserted_at = now) := by
  unfold upsert_activities at h
  split at h
  next acc hrun =>
    injection h with h1 h2
    subst h2
    obtain ⟨hrw, hfl⟩ := runBatch_inserted_at now rows ⟨0, 0, [], db⟩ acc hrun
    exact ⟨hrw aid rr hr, hfl aid fr hf⟩
  next e hrun =>
    injection h with h1 h2
    cases h1

/-- C10 (witness): both rows written for activity 101 by the call at
time 100 carry inserted_at 100. -/
theorem single_timestamp_per_call_witness :
    (tget emptyDB.raw 101 = some rrA100 ∨ rrA100.inserted_at = 100) ∧
    (tget emptyDB.flat 101 = some frA100 ∨ frA100.inserted_at = 100) :=
  single_timestamp_per_call 100 emptyDB [recA] (1, 0, [101]) dbA100 101 rrA100 frA100
    (by decide) (by decide) (by decide)

end RunningRag
